import Mathlib

/-!
Shallow embedding of the update-and-integrity subsystem of the toolbelt
repository: the `DependencyFile` model with git-blob SHA-1 fingerprinting
(`src/models/dependency_file.go`) and the Rubygem update strategy
(`autoupdate` package).  File systems are modelled as partial maps from
paths to byte lists; external processes (bundler, patch) are modelled as
oracles supplied to the embedded functions.
-/

/-- File content: a list of bytes (each a `Nat` below 256). -/
abbrev Bytes := List Nat

/-- A file system: maps a path to the file content, `none` when the file
cannot be read. -/
abbrev FileSystem := String → Option Bytes

/-! ### SHA-1 (crypto/sha1, FIPS 180), executable over byte lists -/

/-- Truncate to a 32-bit word, as Go's uint32 arithmetic does. -/
def w32 (n : Nat) : Nat := n % 4294967296

/-- Rotate a 32-bit word left by `s` bits. -/
def rotl (s n : Nat) : Nat := w32 ((n <<< s) ||| (n >>> (32 - s)))

/-- Big-endian byte encoding of `n` on `k` bytes. -/
def beBytes : Nat → Nat → Bytes
  | 0, _ => []
  | k + 1, n => beBytes k (n / 256) ++ [n % 256]

/-- Group bytes into big-endian 32-bit words (incomplete tail dropped;
inputs are always multiples of 4 bytes here). -/
def toWords : Bytes → List Nat
  | a :: b :: c :: d :: rest => (((a * 256 + b) * 256 + c) * 256 + d) :: toWords rest
  | _ => []

/-- Extend the 16 message words to 80: `rev` holds the words produced so
far, most recent first; `fuel` counts the remaining extension steps. -/
def sha1Schedule : Nat → List Nat → List Nat
  | 0, rev => rev.reverse
  | f + 1, rev =>
      sha1Schedule f
        (rotl 1 ((rev.getD 2 0) ^^^ (rev.getD 7 0) ^^^ (rev.getD 13 0) ^^^ (rev.getD 15 0)) :: rev)

/-- The five 32-bit working registers of SHA-1. -/
structure SHA1State where
  a : Nat
  b : Nat
  c : Nat
  d : Nat
  e : Nat
deriving Repr, DecidableEq

/-- One SHA-1 round: round index `i`, state, message word `w`. -/
def sha1Step (i : Nat) (st : SHA1State) (w : Nat) : SHA1State :=
  let f :=
    if i < 20 then (st.b &&& st.c) ||| ((4294967295 - st.b) &&& st.d)
    else if i < 40 then st.b ^^^ st.c ^^^ st.d
    else if i < 60 then (st.b &&& st.c) ||| (st.b &&& st.d) ||| (st.c &&& st.d)
    else st.b ^^^ st.c ^^^ st.d
  let k :=
    if i < 20 then 1518500249
    else if i < 40 then 1859775393
    else if i < 60 then 2400959708
    else 3395469782
  ⟨w32 (rotl 5 st.a + f + st.e + k + w), st.a, rotl 30 st.b, st.c, st.d⟩

/-- Run the 80 rounds over the message schedule. -/
def sha1Rounds (i : Nat) (st : SHA1State) : List Nat → SHA1State
  | [] => st
  | w :: ws => sha1Rounds (i + 1) (sha1Step i st w) ws

/-- Compress one 64-byte block into the running state. -/
def sha1Block (h : SHA1State) (block : Bytes) : SHA1State :=
  let ws := sha1Schedule 64 (toWords block).reverse
  let st := sha1Rounds 0 h ws
  ⟨w32 (h.a + st.a), w32 (h.b + st.b), w32 (h.c + st.c), w32 (h.d + st.d), w32 (h.e + st.e)⟩

/-- Merkle–Damgård padding: append 0x80, zeros to 56 mod 64, then the
64-bit big-endian bit length. -/
def sha1Pad (m : Bytes) : Bytes :=
  m ++ [128] ++ List.replicate ((119 - m.length % 64) % 64) 0 ++ beBytes 8 (8 * m.length)

/-- Fold the compression over consecutive 64-byte blocks; `fuel` bounds the
number of steps (any fuel at least the block count gives the digest). -/
def sha1Blocks : Nat → SHA1State → Bytes → SHA1State
  | 0, st, _ => st
  | _ + 1, st, [] => st
  | f + 1, st, l => sha1Blocks f (sha1Block st (l.take 64)) (l.drop 64)

/-- SHA-1 digest (20 bytes) of a byte list. -/
def sha1 (m : Bytes) : Bytes :=
  let p := sha1Pad m
  let st := sha1Blocks p.length ⟨1732584193, 4023233417, 2562383102, 271733878, 3285377520⟩ p
  beBytes 4 st.a ++ beBytes 4 st.b ++ beBytes 4 st.c ++ beBytes 4 st.d ++ beBytes 4 st.e

/-- Lower-case hex digit for `n < 16`. -/
def hexDigit (n : Nat) : Char :=
  if n < 10 then Char.ofNat (48 + n) else Char.ofNat (87 + n)

/-- Hex encoding of a byte list, as Go's `fmt.Sprintf("%x", hash)`. -/
def hexEncode (bs : Bytes) : String :=
  String.mk ((bs.map (fun b => [hexDigit (b / 16), hexDigit (b % 16)])).flatten)

/-- Bytes of an ASCII string (the only strings hashed here are ASCII). -/
def strBytes (s : String) : Bytes := s.data.map Char.toNat

/-! ### models/dependency_file.go -/

/-- The `DependencyFile` struct: path, hex fingerprint, raw content. -/
structure DependencyFile where
  Path : String
  SHA : String
  Content : Bytes
deriving Repr, DecidableEq

/-- `GetFileSHA1`: read the file and return the hex SHA-1 of
`"blob " + decimal length + NUL + content` (the git blob hash);
fails when the file cannot be read. -/
def GetFileSHA1 (fs : FileSystem) (filePath : String) : Except String String :=
  match fs filePath with
  | none => Except.error "read error"
  | some dat => Except.ok (hexEncode (sha1 (strBytes ("blob " ++ toString dat.length) ++ [0] ++ dat)))

/-- The git blob fingerprint as a pure function of the content bytes. -/
def gitBlobSHA1 (dat : Bytes) : String :=
  hexEncode (sha1 (strBytes ("blob " ++ toString dat.length) ++ [0] ++ dat))

/-- `NewDependencyFile`: build a `DependencyFile` from disk; the Go
function returns nil (here `none`) when the file cannot be read. -/
def NewDependencyFile (fs : FileSystem) (filePath : String) : Option DependencyFile :=
  match fs filePath with
  | none => none
  | some content =>
    match GetFileSHA1 fs filePath with
    | Except.error _ => none
    | Except.ok sha => some ⟨filePath, sha, content⟩

/-- `DependencyFile.CheckFileSHA1`: recompute the fingerprint from disk and
compare to the stored one; a mismatch is a descriptive error. -/
def DependencyFile.CheckFileSHA1 (fs : FileSystem) (df : DependencyFile) : Except String Unit :=
  match GetFileSHA1 fs df.Path with
  | Except.error e => Except.error e
  | Except.ok sum =>
    if sum ≠ df.SHA then Except.error (df.Path ++ ": File signature mismatch")
    else Except.ok ()

/-- `DependencyFile.UpdateSHA`: recompute and store the fingerprint.  The
Go method mutates the receiver; here the final receiver state is returned
alongside the error, so error paths expose whether fields changed. -/
def DependencyFile.UpdateSHA (fs : FileSystem) (df : DependencyFile) :
    Except String Unit × DependencyFile :=
  match GetFileSHA1 fs df.Path with
  | Except.error e => (Except.error e, df)
  | Except.ok sha => (Except.ok (), { df with SHA := sha })

/-- `DependencyFile.Update` (resync): re-read the content, store it, then
recompute and store the fingerprint via `UpdateSHA`. -/
def DependencyFile.Update (fs : FileSystem) (df : DependencyFile) :
    Except String Unit × DependencyFile :=
  match fs df.Path with
  | none => (Except.error "read error", df)
  | some content =>
    match DependencyFile.UpdateSHA fs { df with Content := content } with
    | (Except.error e, df2) => (Except.error e, df2)
    | (Except.ok _, df2) => (Except.ok (), df2)

/-- Result of one run of the external `patch` tool: its exit status, its
captured standard output, and the file system it leaves behind. -/
structure PatchToolRun where
  exitOk : Bool
  output : String
  fsAfter : FileSystem

/-- Errors of `DependencyFile.Patch`: the patch executable missing from
the search path, the tool exiting non-zero (captured output attached, as
the Go code prints it), or the post-patch resync failing. -/
inductive PatchErr where
  | lookPathNotFound : PatchErr
  | waitError : String → PatchErr
  | updateError : String → PatchErr
deriving Repr, DecidableEq

/-- `DependencyFile.Patch`: locate the patch tool, run it on the file with
the patch text on its input stream, fail with the captured output when it
exits non-zero, and resync content and fingerprint on success.  `toolFound`
models `exec.LookPath`; `run` models the tool as an oracle from the file
path and patch text to a `PatchToolRun`. -/
def DependencyFile.Patch (toolFound : Bool) (run : String → String → PatchToolRun)
    (df : DependencyFile) (patch : String) : Except PatchErr Unit × DependencyFile :=
  if toolFound = false then (Except.error PatchErr.lookPathNotFound, df)
  else
    let r := run df.Path patch
    if r.exitOk = false then (Except.error (PatchErr.waitError r.output), df)
    else
      match DependencyFile.Update r.fsAfter df with
      | (Except.error e, df2) => (Except.error (PatchErr.updateError e), df2)
      | (Except.ok _, df2) => (Except.ok (), df2)

/-! ### autoupdate package (RubygemsUpdater) -/

/-- A package, as referenced by a `VersionUpdate`. -/
structure Package where
  Name : String
deriving Repr, DecidableEq

/-- A desired version change for one package. -/
structure VersionUpdate where
  Package : Package
  OldVersion : String
  TargetVersion : String
deriving Repr, DecidableEq

/-- Result of the external `bundle update` command: its captured output,
whether it exited successfully, and the file system it leaves behind. -/
structure ExecResult where
  out : String
  success : Bool
  fsAfter : FileSystem

/-- The updater's returned errors: `cantUpdateVersions` (the distinct
unsatisfiable-update error) or the raw execution error, whose captured
output the Go code prints before returning. -/
inductive UpdateError where
  | cantUpdateVersions : UpdateError
  | execError : String → UpdateError
deriving Repr, DecidableEq

/-- Outcome of one updater run: the Go function returns nil or an error
while mutating the two slices through pointers; here the outcome carries
the final original and updated lists.  `panic` is the nil-pointer
dereference of `*GemfileLock` when `NewDependencyFile` returned nil. -/
inductive UpdaterOutcome where
  | ok : List DependencyFile → List DependencyFile → UpdaterOutcome
  | error : UpdateError → List DependencyFile → List DependencyFile → UpdaterOutcome
  | panic : List DependencyFile → List DependencyFile → UpdaterOutcome
deriving Repr, DecidableEq

/-- The original-files list of an outcome. -/
def UpdaterOutcome.orgList : UpdaterOutcome → List DependencyFile
  | UpdaterOutcome.ok o _ => o
  | UpdaterOutcome.error _ o _ => o
  | UpdaterOutcome.panic o _ => o

/-- The updated-files list of an outcome. -/
def UpdaterOutcome.updList : UpdaterOutcome → List DependencyFile
  | UpdaterOutcome.ok _ u => u
  | UpdaterOutcome.error _ _ u => u
  | UpdaterOutcome.panic _ u => u

/-- The literal the failure-classification regex anchors on. -/
def bundlerPattern : List Char :=
  "Bundler could not find compatible versions for gem".data

/-- List-of-characters prefix test. -/
def isPrefixList : List Char → List Char → Bool
  | [], _ => true
  | _ :: _, [] => false
  | a :: as, b :: bs => a = b && isPrefixList as bs

/-- Scan for a match of `(?m)^pat`: `atLineStart` tracks whether the scan
position follows the string start or a newline. -/
def multilineAnchorMatch (pat : List Char) (atLineStart : Bool) : List Char → Bool
  | [] => atLineStart && isPrefixList pat []
  | c :: rest =>
    (atLineStart && isPrefixList pat (c :: rest)) || multilineAnchorMatch pat (c = Char.ofNat 10) rest

/-- The Go regex `(?m)^Bundler could not find compatible versions for gem`
applied to the captured output: some line starts with the literal. -/
def matchesCouldNotFind (out : String) : Bool :=
  multilineAnchorMatch bundlerPattern true out.data

/-- The default external update command, `BUNDLE_UPDATE_CMD`. -/
def BUNDLE_UPDATE_CMD : String := "bundle update"

/-- `strings.Fields` restricted to spaces (the only separator occurring in
the commands here): split into non-empty space-separated words. -/
def splitFieldsAux : List Char → List Char → List String
  | acc, [] => if acc.isEmpty then [] else [String.mk acc.reverse]
  | acc, c :: rest =>
    if c = Char.ofNat 32 then
      if acc.isEmpty then splitFieldsAux [] rest
      else String.mk acc.reverse :: splitFieldsAux [] rest
    else splitFieldsAux (c :: acc) rest

/-- Split a command string into its fields. -/
def splitFields (s : String) : List String := splitFieldsAux [] s.data

/-- The command line the strategy builds: the base command (the
environment override when non-empty, else `BUNDLE_UPDATE_CMD`) split into
fields, then one package name per version update, in order. -/
def rubygemsParts (uptEnv : String) (vus : List VersionUpdate) : List String :=
  splitFields (if uptEnv ≠ "" then uptEnv else BUNDLE_UPDATE_CMD) ++
    vus.map (fun vu => vu.Package.Name)

/-- `RubygemsUpdater`: snapshot Gemfile.lock into the original list (the
Go code dereferences the nil from `NewDependencyFile` without a check,
modelled as `panic`), run the external command (an oracle from the built
command line), classify a failure by the bundler pattern, and on success
resync Gemfile.lock — ignoring the resync error, as the Go code does —
and append it to the updated list.  `uptEnv` models
`os.Getenv(config.ENV_GEMNASIUM_BUNDLE_UPDATE_CMD)` (empty = unset). -/
def RubygemsUpdater (fs : FileSystem) (uptEnv : String)
    (exec : List String → ExecResult) (versionUpdates : List VersionUpdate)
    (orgDepFiles uptDepFiles : List DependencyFile) : UpdaterOutcome :=
  match NewDependencyFile fs "Gemfile.lock" with
  | none => UpdaterOutcome.panic orgDepFiles uptDepFiles
  | some gemfileLock =>
    let org := orgDepFiles ++ [gemfileLock]
    let res := exec (rubygemsParts uptEnv versionUpdates)
    if res.success then
      UpdaterOutcome.ok org
        (uptDepFiles ++ [(DependencyFile.Update res.fsAfter gemfileLock).2])
    else if matchesCouldNotFind res.out then
      UpdaterOutcome.error UpdateError.cantUpdateVersions org uptDepFiles
    else
      UpdaterOutcome.error (UpdateError.execError res.out) org uptDepFiles

/-! ### Concrete fixtures used by witnesses and counterexamples -/

/-- A file system holding only Gemfile.lock with content `[97]`. -/
def fsLockA : FileSystem :=
  fun p => if p = "Gemfile.lock" then some ([97] : Bytes) else none

/-- A file system holding only Gemfile.lock with content `[98]`. -/
def fsLockB : FileSystem :=
  fun p => if p = "Gemfile.lock" then some ([98] : Bytes) else none

/-- The empty file system: nothing is readable. -/
def fsNone : FileSystem := fun _ => none

/-- A file system holding only the empty file `f`. -/
def fsEmptyFile : FileSystem :=
  fun p => if p = "f" then some ([] : Bytes) else none

/-- The snapshot of Gemfile.lock under `fsLockA`. -/
def dfLockA : DependencyFile := ⟨"Gemfile.lock", gitBlobSHA1 [97], [97]⟩

/-- The snapshot of Gemfile.lock under `fsLockB`. -/
def dfLockB : DependencyFile := ⟨"Gemfile.lock", gitBlobSHA1 [98], [98]⟩

/-- An external command that succeeds and leaves `fsLockA` unchanged. -/
def execOkSame : List String → ExecResult := fun _ => ⟨"", true, fsLockA⟩

/-- An external command that succeeds and rewrites Gemfile.lock to `[98]`. -/
def execOkChange : List String → ExecResult := fun _ => ⟨"", true, fsLockB⟩

/-- An external command that fails with non-matching output. -/
def execFailBoom : List String → ExecResult := fun _ => ⟨"boom", false, fsLockA⟩

/-- An external command that fails with the bundler unsatisfiable-versions
message on its output. -/
def execFailBundler : List String → ExecResult :=
  fun _ => ⟨"Bundler could not find compatible versions for gem rails", false, fsLockA⟩

/-- A patch tool run that rejects the patch with output `rejected`. -/
def runRejected : String → String → PatchToolRun :=
  fun _ _ => ⟨false, "rejected", fsNone⟩

/-- A `DependencyFile` for `f` with stale stored fields. -/
def dfF : DependencyFile := ⟨"f", "stale", [1]⟩

/-- C4: `Update` (resync) acts atomically on the stored fields: either the
file is unreadable and it returns an error with the `DependencyFile`
exactly as before (neither Content nor SHA changed), or it succeeds and
both stored fields reflect the same on-disk bytes. -/
theorem update_resync_atomic (fs : FileSystem) (df : DependencyFile) :
    (fs df.Path = none ∧ DependencyFile.Update fs df = (Except.error "read error", df)) ∨
    (∃ c, fs df.Path = some c ∧
      DependencyFile.Update fs df = (Except.ok (), ⟨df.Path, gitBlobSHA1 c, c⟩)) := by
  cases hfs : fs df.Path with
  | none =>
    left
    simp [DependencyFile.Update, hfs]
  | some c =>
    right
    exact ⟨c, rfl, by simp [DependencyFile.Update, DependencyFile.UpdateSHA, GetFileSHA1,
      gitBlobSHA1, hfs]⟩

/-- C5: `GetFileSHA1` on a readable file returns the hex-encoded SHA-1 of
the byte string `"blob " ++ decimal length ++ NUL ++ content`, and is a
deterministic function of the content bytes: reads of identical bytes via
any file systems and paths give identical fingerprints. -/
theorem getFileSHA1_blob_deterministic (fs1 fs2 : FileSystem) (p1 p2 : String) (c : Bytes)
    (h1 : fs1 p1 = some c) (h2 : fs2 p2 = some c) :
    GetFileSHA1 fs1 p1 =
      Except.ok (hexEncode (sha1 (strBytes ("blob " ++ toString c.length) ++ [0] ++ c))) ∧
    GetFileSHA1 fs1 p1 = GetFileSHA1 fs2 p2 := by
  constructor
  · simp [GetFileSHA1, h1]
  · simp [GetFileSHA1, h1, h2]

set_option maxRecDepth 40000 in
/-- Witness for C5: the empty file; the fingerprint evaluates to the
well-known git hash of the empty blob. -/
theorem getFileSHA1_blob_deterministic_witness :
    fsEmptyFile "f" = some [] ∧
    GetFileSHA1 fsEmptyFile "f" = Except.ok "e69de29bb2d1d6434b8b29ae775ad8c2e48c5391" := by
  refine ⟨rfl, ?_⟩
  rw [(getFileSHA1_blob_deterministic fsEmptyFile fsEmptyFile "f" "f" [] rfl rfl).1]
  exact congrArg Except.ok (by decide)

/-- C8: a successful `Update` (resync) followed by `CheckFileSHA1`
(verifyIntegrity) against the same on-disk state always succeeds. -/
theorem update_then_check_succeeds (fs : FileSystem) (df df2 : DependencyFile)
    (h : DependencyFile.Update fs df = (Except.ok (), df2)) :
    DependencyFile.CheckFileSHA1 fs df2 = Except.ok () := by
  cases hfs : fs df.Path with
  | none => simp [DependencyFile.Update, hfs] at h
  | some c =>
    simp [DependencyFile.Update, DependencyFile.UpdateSHA, GetFileSHA1, hfs] at h
    subst h
    simp [DependencyFile.CheckFileSHA1, GetFileSHA1, gitBlobSHA1, hfs]

/-- C9 evaluation: on a file system where Gemfile.lock cannot be read,
`NewDependencyFile` returns nil and `RubygemsUpdater` dereferences it:
the run panics instead of returning an error. -/
theorem rubygemsUpdater_panics_on_unreadable_lock :
    RubygemsUpdater fsNone "" execOkSame [] [] [] = UpdaterOutcome.panic [] [] := rfl

/-- Helper: complete case analysis of one `RubygemsUpdater` run, shared by
the claim proofs below. -/
theorem rubygemsUpdater_run_cases (fs : FileSystem) (uptEnv : String)
    (exec : List String → ExecResult) (vus : List VersionUpdate)
    (org upd : List DependencyFile) :
    (fs "Gemfile.lock" = none ∧
      RubygemsUpdater fs uptEnv exec vus org upd = UpdaterOutcome.panic org upd) ∨
    (∃ c, fs "Gemfile.lock" = some c ∧
      (((exec (rubygemsParts uptEnv vus)).success = true ∧
        RubygemsUpdater fs uptEnv exec vus org upd =
          UpdaterOutcome.ok (org ++ [⟨"Gemfile.lock", gitBlobSHA1 c, c⟩])
            (upd ++ [(DependencyFile.Update (exec (rubygemsParts uptEnv vus)).fsAfter
              ⟨"Gemfile.lock", gitBlobSHA1 c, c⟩).2])) ∨
      ((exec (rubygemsParts uptEnv vus)).success = false ∧
        matchesCouldNotFind (exec (rubygemsParts uptEnv vus)).out = true ∧
        RubygemsUpdater fs uptEnv exec vus org upd =
          UpdaterOutcome.error UpdateError.cantUpdateVersions
            (org ++ [⟨"Gemfile.lock", gitBlobSHA1 c, c⟩]) upd) ∨
      ((exec (rubygemsParts uptEnv vus)).success = false ∧
        matchesCouldNotFind (exec (rubygemsParts uptEnv vus)).out = false ∧
        RubygemsUpdater fs uptEnv exec vus org upd =
          UpdaterOutcome.error (UpdateError.execError (exec (rubygemsParts uptEnv vus)).out)
            (org ++ [⟨"Gemfile.lock", gitBlobSHA1 c, c⟩]) upd))) := by
  cases hfs : fs "Gemfile.lock" with
  | none =>
    left
    exact ⟨rfl, by unfold RubygemsUpdater; simp [NewDependencyFile, hfs]⟩
  | some c =>
    right
    refine ⟨c, rfl, ?_⟩
    have hnew : NewDependencyFile fs "Gemfile.lock" =
        some ⟨"Gemfile.lock", gitBlobSHA1 c, c⟩ := by
      simp [NewDependencyFile, GetFileSHA1, gitBlobSHA1, hfs]
    cases hs : (exec (rubygemsParts uptEnv vus)).success with
    | true =>
      left
      refine ⟨rfl, ?_⟩
      unfold RubygemsUpdater
      rw [hnew]
      simp [hs]
    | false =>
      cases hm : matchesCouldNotFind (exec (rubygemsParts uptEnv vus)).out with
      | true =>
        right; left
        refine ⟨rfl, rfl, ?_⟩
        unfold RubygemsUpdater
        rw [hnew]
        simp [hs, hm]
      | false =>
        right; right
        refine ⟨rfl, rfl, ?_⟩
        unfold RubygemsUpdater
        rw [hnew]
        simp [hs, hm]

/-- C1: whenever Gemfile.lock is readable, every run of the Rubygem update
strategy leaves the Original list extended by exactly the pre-command
snapshot of Gemfile.lock (current content and fingerprint) — uniformly in
the external command's behaviour, success or failure, so the snapshot is
in Original before the command's result can matter. -/
theorem rubygemsUpdater_snapshots_original (fs : FileSystem) (uptEnv : String)
    (exec : List String → ExecResult) (vus : List VersionUpdate)
    (org upd : List DependencyFile) (c : Bytes)
    (h : fs "Gemfile.lock" = some c) :
    (RubygemsUpdater fs uptEnv exec vus org upd).orgList =
      org ++ [⟨"Gemfile.lock", gitBlobSHA1 c, c⟩] := by
  rcases rubygemsUpdater_run_cases fs uptEnv exec vus org upd with ⟨hn, _⟩ | ⟨c2, hfs, hcase⟩
  · rw [h] at hn; cases hn
  · rw [h] at hfs
    injection hfs with hc
    subst hc
    rcases hcase with ⟨_, heq⟩ | ⟨_, _, heq⟩ | ⟨_, _, heq⟩ <;> rw [heq] <;> rfl

/-- Witness for C1: a concrete failing run still has the snapshot of
Gemfile.lock appended to Original. -/
theorem rubygemsUpdater_snapshots_original_witness :
    fsLockA "Gemfile.lock" = some [97] ∧
    (RubygemsUpdater fsLockA "" execFailBoom [] [] []).orgList = [] ++ [dfLockA] :=
  ⟨rfl, rubygemsUpdater_snapshots_original fsLockA "" execFailBoom [] [] [] [97] rfl⟩

/-- C2: a run of the Rubygem update strategy that returns an error leaves
the Updated list exactly as it was; an entry is appended to Updated only
on the success path. -/
theorem rubygemsUpdater_error_keeps_updated (fs : FileSystem) (uptEnv : String)
    (exec : List String → ExecResult) (vus : List VersionUpdate)
    (org upd : List DependencyFile) :
    (∀ e o u, RubygemsUpdater fs uptEnv exec vus org upd = UpdaterOutcome.error e o u →
      u = upd) ∧
    (∀ o u, RubygemsUpdater fs uptEnv exec vus org upd = UpdaterOutcome.ok o u →
      ∃ d, u = upd ++ [d]) := by
  rcases rubygemsUpdater_run_cases fs uptEnv exec vus org upd with ⟨_, heq⟩ | ⟨c, _, hcase⟩
  · constructor
    · intro e o u h
      rw [heq] at h
      cases h
    · intro o u h
      rw [heq] at h
      cases h
  · rcases hcase with ⟨_, heq⟩ | ⟨_, _, heq⟩ | ⟨_, _, heq⟩
    · constructor
      · intro e o u h
        rw [heq] at h
        cases h
      · intro o u h
        rw [heq] at h
        injection h with _ hu
        exact ⟨_, hu.symm⟩
    · constructor
      · intro e o u h
        rw [heq] at h
        injection h with _ _ hu
        exact hu.symm
      · intro o u h
        rw [heq] at h
        cases h
    · constructor
      · intro e o u h
        rw [heq] at h
        injection h with _ _ hu
        exact hu.symm
      · intro o u h
        rw [heq] at h
        cases h

/-- Witness for C2: a concrete failing run returns the execution error and
leaves Updated empty. -/
theorem rubygemsUpdater_error_keeps_updated_witness :
    RubygemsUpdater fsLockA "" execFailBoom [] [] [] =
      UpdaterOutcome.error (UpdateError.execError "boom") [dfLockA] [] ∧
    ([] : List DependencyFile) = [] :=
  ⟨rfl, (rubygemsUpdater_error_keeps_updated fsLockA "" execFailBoom [] [] []).1 _ _ _ rfl⟩

/-- C3: when the external command fails, the strategy classifies the
captured output: if some line begins with the bundler
could-not-find-compatible-versions literal it returns the distinct
unsatisfiable-update error, otherwise the generic execution error carrying
the raw output; in both cases nothing is appended to Updated. -/
theorem rubygemsUpdater_failure_classification (fs : FileSystem) (uptEnv : String)
    (exec : List String → ExecResult) (vus : List VersionUpdate)
    (org upd : List DependencyFile) (c : Bytes)
    (h : fs "Gemfile.lock" = some c)
    (hfail : (exec (rubygemsParts uptEnv vus)).success = false) :
    (matchesCouldNotFind (exec (rubygemsParts uptEnv vus)).out = true →
      RubygemsUpdater fs uptEnv exec vus org upd =
        UpdaterOutcome.error UpdateError.cantUpdateVersions
          (org ++ [⟨"Gemfile.lock", gitBlobSHA1 c, c⟩]) upd) ∧
    (matchesCouldNotFind (exec (rubygemsParts uptEnv vus)).out = false →
      RubygemsUpdater fs uptEnv exec vus org upd =
        UpdaterOutcome.error (UpdateError.execError (exec (rubygemsParts uptEnv vus)).out)
          (org ++ [⟨"Gemfile.lock", gitBlobSHA1 c, c⟩]) upd) := by
  rcases rubygemsUpdater_run_cases fs uptEnv exec vus org upd with ⟨hn, _⟩ | ⟨c2, hfs, hcase⟩
  · rw [h] at hn; cases hn
  · rw [h] at hfs
    injection hfs with hc
    subst hc
    rcases hcase with ⟨hs, _⟩ | ⟨_, hm, heq⟩ | ⟨_, hm, heq⟩
    · rw [hs] at hfail; cases hfail
    · constructor
      · intro _
        exact heq
      · intro hm2
        rw [hm] at hm2
        cases hm2
    · constructor
      · intro hm2
        rw [hm] at hm2
        cases hm2
      · intro _
        exact heq

/-- Witness for C3: a failing run whose output is the bundler message
returns the unsatisfiable-update error and appends nothing to Updated. -/
theorem rubygemsUpdater_failure_classification_witness :
    matchesCouldNotFind "Bundler could not find compatible versions for gem rails" = true ∧
    RubygemsUpdater fsLockA "" execFailBundler [] [] [] =
      UpdaterOutcome.error UpdateError.cantUpdateVersions [dfLockA] [] :=
  ⟨rfl,
    (rubygemsUpdater_failure_classification fsLockA "" execFailBundler [] [] [] [97]
      rfl rfl).1 rfl⟩

/-- C6 counterexample: a successful run whose external command exits zero
while leaving Gemfile.lock byte-identical appends one Original and one
Updated entry with the SAME fingerprint, refuting the claimed
inequality of fingerprints on every successful run. -/
theorem rubygemsUpdater_equal_fingerprints_cex :
    RubygemsUpdater fsLockA "" execOkSame [] [] [] =
      UpdaterOutcome.ok [dfLockA] [dfLockA] ∧
    dfLockA.SHA = dfLockA.SHA :=
  ⟨rfl, rfl⟩

/-- C6 amended: a successful run appends exactly one entry to Original
(the pre-command snapshot) and exactly one entry to Updated (the
post-command snapshot); the two fingerprints are the blob hashes of the
pre- and post-command contents, so they differ exactly when those hashes
differ — not unconditionally. -/
theorem rubygemsUpdater_success_appends_one_each (fs : FileSystem) (uptEnv : String)
    (exec : List String → ExecResult) (vus : List VersionUpdate)
    (org upd : List DependencyFile) (c c2 : Bytes)
    (h : fs "Gemfile.lock" = some c)
    (hok : (exec (rubygemsParts uptEnv vus)).success = true)
    (h2 : (exec (rubygemsParts uptEnv vus)).fsAfter "Gemfile.lock" = some c2) :
    RubygemsUpdater fs uptEnv exec vus org upd =
      UpdaterOutcome.ok (org ++ [⟨"Gemfile.lock", gitBlobSHA1 c, c⟩])
        (upd ++ [⟨"Gemfile.lock", gitBlobSHA1 c2, c2⟩]) := by
  rcases rubygemsUpdater_run_cases fs uptEnv exec vus org upd with ⟨hn, _⟩ | ⟨c3, hfs, hcase⟩
  · rw [h] at hn; cases hn
  · rw [h] at hfs
    injection hfs with hc
    subst hc
    rcases hcase with ⟨_, heq⟩ | ⟨hs, _, _⟩ | ⟨hs, _, _⟩
    · rw [heq]
      have : (DependencyFile.Update (exec (rubygemsParts uptEnv vus)).fsAfter
          ⟨"Gemfile.lock", gitBlobSHA1 c, c⟩).2 = ⟨"Gemfile.lock", gitBlobSHA1 c2, c2⟩ := by
        simp [DependencyFile.Update, DependencyFile.UpdateSHA, GetFileSHA1, gitBlobSHA1, h2]
      rw [this]
    · rw [hs] at hok; cases hok
    · rw [hs] at hok; cases hok

/-- Witness for C6 amended: a successful run that rewrites Gemfile.lock
from `[97]` to `[98]` appends the two corresponding snapshots. -/
theorem rubygemsUpdater_success_appends_one_each_witness :
    fsLockA "Gemfile.lock" = some [97] ∧
    RubygemsUpdater fsLockA "" execOkChange [] [] [] =
      UpdaterOutcome.ok [dfLockA] [dfLockB] :=
  ⟨rfl,
    rubygemsUpdater_success_appends_one_each fsLockA "" execOkChange [] [] [] [97] [98]
      rfl rfl rfl⟩

/-- C7: with the patch tool present on the search path, a run in which the
tool exits non-zero returns an error carrying the captured output and
leaves the stored Content and SHA exactly as they were; a run in which
the tool exits zero and the patched file is readable resynchronizes both
stored fields to the new on-disk bytes. -/
theorem patch_nonzero_exit_preserves_state (toolFound : Bool)
    (run : String → String → PatchToolRun) (df : DependencyFile) (ptext : String)
    (h : toolFound = true) :
    ((run df.Path ptext).exitOk = false →
      DependencyFile.Patch toolFound run df ptext =
        (Except.error (PatchErr.waitError (run df.Path ptext).output), df)) ∧
    (∀ c, (run df.Path ptext).exitOk = true →
      (run df.Path ptext).fsAfter df.Path = some c →
      DependencyFile.Patch toolFound run df ptext = (Except.ok (), ⟨df.Path, gitBlobSHA1 c, c⟩)) := by
  subst h
  constructor
  · intro hx
    simp [DependencyFile.Patch, hx]
  · intro c hx hc
    simp [DependencyFile.Patch, hx, DependencyFile.Update, DependencyFile.UpdateSHA,
      GetFileSHA1, gitBlobSHA1, hc]

/-- Witness for C7: a concrete rejected patch fails with the captured
output and leaves the `DependencyFile` unchanged. -/
theorem patch_nonzero_exit_preserves_state_witness :
    DependencyFile.Patch true runRejected dfLockA "some patch" =
      (Except.error (PatchErr.waitError "rejected"), dfLockA) :=
  (patch_nonzero_exit_preserves_state true runRejected dfLockA "some patch" rfl).1 rfl

/-- Witness for C8: resync of a stale `DependencyFile` for the empty file
succeeds and the follow-up integrity check passes. -/
theorem update_then_check_succeeds_witness :
    DependencyFile.Update fsEmptyFile dfF = (Except.ok (), ⟨"f", gitBlobSHA1 [], []⟩) ∧
    DependencyFile.CheckFileSHA1 fsEmptyFile ⟨"f", gitBlobSHA1 [], []⟩ = Except.ok () :=
  ⟨rfl, update_then_check_succeeds fsEmptyFile dfF _ rfl⟩
